import Mathlib

/-!
Verification development for the `video2mp4` WebSocket conversion/upload
server (`src/video2mp4/websocket_server.py` and `src/video2mp4/core.py`).

The Python code is shallowly embedded: `dict` state becomes association
lists with Python `d[k] = v` / `del d[k]` semantics, file-system contents
become a map from path strings to byte lists, and the asynchronous
handlers become pure state-transition functions returning the new server
state together with the list of messages sent over the connection.
-/

namespace Video2MP4

/-! ### Python `dict` as an association list

`dictSet` mirrors `d[k] = v`: an existing key keeps its position and gets
the new value, a fresh key is appended (insertion order, as in Python).
`dictErase` mirrors `del d[k]` / `d.pop(k)`; `dictGet` mirrors `d.get(k)`.
-/

def dictGet {K V : Type} [DecidableEq K] : List (K × V) → K → Option V
  | [], _ => none
  | (k', v) :: rest, k => if k' = k then some v else dictGet rest k

def dictSet {K V : Type} [DecidableEq K] : List (K × V) → K → V → List (K × V)
  | [], k, v => [(k, v)]
  | (k', v') :: rest, k, v =>
      if k' = k then (k, v) :: rest else (k', v') :: dictSet rest k v

def dictErase {K V : Type} [DecidableEq K] : List (K × V) → K → List (K × V)
  | [], _ => []
  | (k', v') :: rest, k =>
      if k' = k then dictErase rest k else (k', v') :: dictErase rest k

theorem dictGet_set_eq {K V : Type} [DecidableEq K] (l : List (K × V)) (k : K) (v : V) :
    dictGet (dictSet l k v) k = some v := by
  induction l with
  | nil => simp [dictGet, dictSet]
  | cons p rest ih =>
      by_cases h : p.1 = k
      · simp [dictSet, dictGet, h]
      · simp [dictSet, dictGet, h, ih]

theorem dictGet_set_ne {K V : Type} [DecidableEq K] (l : List (K × V)) (k k' : K) (v : V)
    (h : k ≠ k') : dictGet (dictSet l k v) k' = dictGet l k' := by
  induction l with
  | nil => simp [dictGet, dictSet, h]
  | cons p rest ih =>
      by_cases hp : p.1 = k
      · simp [dictSet, dictGet, hp, h]
      · simp [dictSet, dictGet, hp, ih]

/-! ### Path model

`pathJoin` mirrors `os.path.join(dir, name)` for the two-argument uses in
the source: an absolute second argument discards the first.  `dirnameStr`
mirrors `os.path.dirname`.  `resolvePath` normalises a path the way the
operating system resolves it when opening a file (lexical elimination of
`.` and `..` segments, symlinks not modelled), and `withinRoot` decides
whether a path stays inside a root directory after that resolution.
-/

def startsWithSlash (s : String) : Bool :=
  match s.toList with
  | '/' :: _ => true
  | _ => false

def pathJoin (dir name : String) : String :=
  if startsWithSlash name then name
  else if dir = "" then name
  else dir ++ "/" ++ name

def splitSlashAux : List Char → List Char → List (List Char)
  | [], acc => [acc.reverse]
  | '/' :: rest, acc => acc.reverse :: splitSlashAux rest []
  | c :: rest, acc => splitSlashAux rest (c :: acc)

def dirnameChars (cs : List Char) : List Char :=
  match cs.reverse.dropWhile (fun c => ¬ c = '/') with
  | [] => []
  | _ :: rest => if rest = [] then ['/'] else rest.reverse

def dirnameStr (s : String) : String :=
  ⟨dirnameChars s.toList⟩

def normParts (isAbs : Bool) : List (List Char) → List (List Char) → List (List Char)
  | stack, [] => stack.reverse
  | stack, seg :: rest =>
      if seg = [] ∨ seg = ['.'] then normParts isAbs stack rest
      else if seg = ['.', '.'] then
        match stack with
        | [] =>
            if isAbs then normParts isAbs [] rest
            else normParts isAbs [['.', '.']] rest
        | p :: stack' =>
            if p = ['.', '.'] then normParts isAbs (seg :: p :: stack') rest
            else normParts isAbs stack' rest
      else normParts isAbs (seg :: stack) rest

def resolvePath (p : String) : Bool × List (List Char) :=
  let cs := p.toList
  let isAbs := startsWithSlash p
  (isAbs, normParts isAbs [] (splitSlashAux cs []))

def partsBelow : List (List Char) → List (List Char) → Bool
  | [], _ => true
  | _ :: _, [] => false
  | a :: as, b :: bs => a = b && partsBelow as bs

def withinRoot (root p : String) : Bool :=
  let r := resolvePath root
  let q := resolvePath p
  r.1 = q.1 && partsBelow r.2 q.2

example : withinRoot "uploads" "uploads/a.mp4" = true := by decide
example : withinRoot "uploads" "uploads/../pwned.mp4" = false := by decide
example : withinRoot "uploads" "/etc/pwned" = false := by decide

/-! ### Embedding of `core.py`: `convert_video`

`Update` is the dictionary passed to the progress callback.  `pyInt`
models Python `int()` on a real number (truncation toward zero); real
arithmetic is modelled exactly over `ℚ`.  `convProgress` is the
percentage computation of `core.py` lines 169-176: for an
`out_time_ms=<t>` line, `time_sec = t / 1000000` and, when the probed
duration is positive, `progress = min(100, int((time_sec / duration) * 100))`,
otherwise `progress = 0`.
-/

inductive Update where
  | progress (progress : Int) (time : ℚ) (duration : ℚ)
  | completed (output : String)
  | errorU (message : String)
deriving DecidableEq, Repr

inductive ProgLine where
  | outTime (timeMs : Int)
  | other
deriving DecidableEq, Repr

def pyInt (q : ℚ) : Int :=
  if q < 0 then ⌈q⌉ else ⌊q⌋

def convProgress (timeMs : Int) (duration : ℚ) : Int :=
  if 0 < duration then
    min 100 (pyInt ((timeMs : ℚ) / 1000000 / duration * 100))
  else 0

/-- Percentage computed by `handle_upload_chunk` (websocket_server.py
lines 252-253): `min(100, int((uploaded_size / file_size) * 100))`.
The session's stored `file_size` is always present, so the dictionary
lookup default of `1` is never used; `file_size = 0` raises
`ZeroDivisionError`, modelled as `none`. -/
def uploadProgressPct (uploaded fileSize : Nat) : Option Nat :=
  if fileSize = 0 then none else some (min 100 (uploaded * 100 / fileSize))

/-- Environment of one `convert_video` call: the request arguments plus
every fact about the outside world the function's control flow inspects
(tool availability, file-system probes, the collaborator's progress
stream and exit code). -/
structure ConvEnv where
  inputFile : String
  outputFile : String
  cwd : String
  ffmpegAvailable : Bool
  inputExists : Bool
  inputIsFile : Bool
  outputDirMissing : Bool
  makedirsFails : Bool
  duration : ℚ
  spawnFails : Bool
  spawnErrMsg : String
  lines : List ProgLine
  returncode : Int
  stderr : String
deriving DecidableEq, Repr

/-- The `call_callback` wrapper of `core.py` lines 70-79: the
caller-supplied callback is invoked inside `try/except Exception`, so a
raising callback (modelled as returning `Except.error`) is swallowed and
the wrapper always returns normally. -/
def callCallback {E : Type} (cb : Update → Except E Unit) (u : Update) : Except E Unit :=
  match cb u with
  | Except.ok _ => Except.ok ()
  | Except.error _ => Except.ok ()

/-- The `for line in process.stdout` loop of `core.py` lines 167-186:
each `out_time_ms=` line yields one `progress` update delivered through
`call_callback`; other lines (and unparsable values, `ValueError`
passed) are skipped.  Returns the updates delivered, in order. -/
def procLines {E : Type} (cb : Update → Except E Unit) (duration : ℚ) :
    List ProgLine → Except E (List Update)
  | [] => Except.ok []
  | ProgLine.other :: rest => procLines cb duration rest
  | ProgLine.outTime t :: rest =>
      match callCallback cb
          (Update.progress (convProgress t duration) ((t : ℚ) / 1000000) duration) with
      | Except.error e => Except.error e
      | Except.ok _ =>
          match procLines cb duration rest with
          | Except.error e => Except.error e
          | Except.ok us =>
              Except.ok
                (Update.progress (convProgress t duration) ((t : ℚ) / 1000000) duration :: us)

/-- One error exit of `convert_video`: the error update is delivered
through `call_callback` and the function returns `False`. -/
def failWith {E : Type} (cb : Update → Except E Unit) (msg : String) :
    Except E (Bool × List Update) :=
  match callCallback cb (Update.errorU msg) with
  | Except.error e => Except.error e
  | Except.ok _ => Except.ok (false, [Update.errorU msg])

/-- The output path carried by the `completed` update, after the
rewrite of `core.py` lines 122-124: an output file with no directory
part is prefixed with the current working directory. -/
def convOutPath (env : ConvEnv) : String :=
  if dirnameStr env.outputFile = "" then pathJoin env.cwd env.outputFile
  else env.outputFile

/-- Embedding of `convert_video` (`core.py` lines 46-204) over an
explicit environment.  Returns the boolean result together with the list
of updates delivered to the callback; exceptions raised by the callback
live in the `Except` layer.  Error-message interpolations follow the
source. -/
def convertVideoRun {E : Type} (env : ConvEnv) (cb : Update → Except E Unit) :
    Except E (Bool × List Update) :=
  if env.inputFile = "" then failWith cb "Input file path is required"
  else if env.outputFile = "" then failWith cb "Output file path is required"
  else if ¬ env.ffmpegAvailable then
    failWith cb "FFmpeg not found. Please install FFmpeg and add it to system PATH"
  else if ¬ env.inputExists then
    failWith cb ("Input file not found: " ++ env.inputFile)
  else if ¬ env.inputIsFile then
    failWith cb ("Input path is not a file: " ++ env.inputFile)
  else if ¬ (dirnameStr env.outputFile = "") ∧ env.outputDirMissing ∧ env.makedirsFails then
    failWith cb "Failed to create output directory"
  else
    if env.spawnFails then failWith cb env.spawnErrMsg
    else
      match procLines cb env.duration env.lines with
      | Except.error e => Except.error e
      | Except.ok us =>
          if env.returncode = 0 then
            match callCallback cb (Update.completed (convOutPath env)) with
            | Except.error e => Except.error e
            | Except.ok _ => Except.ok (true, us ++ [Update.completed (convOutPath env)])
          else
            match callCallback cb (Update.errorU env.stderr) with
            | Except.error e => Except.error e
            | Except.ok _ => Except.ok (false, us ++ [Update.errorU env.stderr])

/-- Updates `convert_video` delivers in environment `env` (with a
callback that never raises). -/
def convUpdates (env : ConvEnv) : List Update :=
  match convertVideoRun env (fun _ => (Except.ok () : Except Unit Unit)) with
  | Except.ok (_, us) => us
  | Except.error _ => []

theorem callCallback_eq_ok {E : Type} (cb : Update → Except E Unit) (u : Update) :
    callCallback cb u = Except.ok () := by
  unfold callCallback
  cases cb u <;> rfl

theorem procLines_cb_irrelevant {E : Type} (cb cb' : Update → Except E Unit) (d : ℚ)
    (ls : List ProgLine) : procLines cb d ls = procLines cb' d ls := by
  induction ls with
  | nil => rfl
  | cons l rest ih =>
      cases l with
      | outTime t => simp [procLines, callCallback_eq_ok, ih]
      | other => simp [procLines, ih]

theorem procLines_isOk {E : Type} (cb : Update → Except E Unit) (d : ℚ)
    (ls : List ProgLine) : ∃ us, procLines cb d ls = Except.ok us := by
  induction ls with
  | nil => exact ⟨[], rfl⟩
  | cons l rest ih =>
      obtain ⟨us, hus⟩ := ih
      cases l with
      | outTime t =>
          exact ⟨Update.progress (convProgress t d) ((t : ℚ) / 1000000) d :: us,
            by simp [procLines, callCallback_eq_ok, hus]⟩
      | other => exact ⟨us, by simpa [procLines] using hus⟩

theorem failWith_eq {E : Type} (cb : Update → Except E Unit) (msg : String) :
    failWith cb msg = Except.ok (false, [Update.errorU msg]) := by
  simp [failWith, callCallback_eq_ok]

theorem convertVideoRun_cb_irrelevant {E : Type} (env : ConvEnv)
    (cb cb' : Update → Except E Unit) :
    convertVideoRun env cb = convertVideoRun env cb' := by
  unfold convertVideoRun
  rw [procLines_cb_irrelevant cb cb']
  simp only [failWith_eq, callCallback_eq_ok]

theorem convertVideoRun_isOk {E : Type} (env : ConvEnv) (cb : Update → Except E Unit) :
    ∃ r, convertVideoRun env cb = Except.ok r := by
  obtain ⟨us, hus⟩ := procLines_isOk cb env.duration env.lines
  unfold convertVideoRun
  simp only [failWith_eq, callCallback_eq_ok, hus]
  repeat' split
  all_goals exact ⟨_, rfl⟩

/-! ### Embedding of `websocket_server.py`: state and responses

Connections are numbered; task and upload identifiers mirror the source
strings `f"{id(websocket)}_{n}"` as the pair `(connection id, n)` (the
string encoding of such a pair is injective since `id(websocket)` is a
decimal number and `_` the separator).  Client-supplied interpolations
inside error message strings are elided. -/

abbrev TaskId : Type := Nat × Nat

abbrev UploadId : Type := Nat × Nat

inductive Response where
  | error (msg : String)
  | taskStarted (tid : TaskId)
  | taskCancelled (tid : TaskId)
  | progressEvt (tid : TaskId) (u : Update)
  | uploadInit (uid : UploadId)
  | uploadProgress (uid : UploadId) (progress uploaded total : Nat)
  | uploadDone (uid : UploadId) (path fname : String)
deriving DecidableEq, Repr

/-- A message sent to a connection: destination connection id paired
with the response record. -/
abbrev Out : Type := Nat × Response

/-- One entry of `self.uploads` (websocket_server.py lines 182-188,
196): `handleOpen` is `True` when `file_handle` holds an open handle,
`False` while it is `None`. -/
structure UploadSession where
  fileName : String
  filePath : String
  fileSize : Nat
  uploadedSize : Nat
  handleOpen : Bool
deriving DecidableEq, Repr

/-- One in-flight `run_conversion` executor job spawned by
`handle_convert_request`.  `pending` is the list of updates
`convert_video` has yet to deliver through the captured
`progress_callback`; `started` records whether a worker thread has
begun executing the job (a job that has not started can still be
cancelled through the executor future; a started job runs to
completion regardless of `asyncio.Task.cancel`). -/
structure Runner where
  tid : TaskId
  conn : Nat
  pending : List Update
  started : Bool
deriving DecidableEq, Repr

/-- The server's mutable state: `tasks` is the key set of `self.tasks`
(the stored `asyncio.Task` handles carry no further modelled
information), `uploads` is `self.uploads`, `files` maps a destination
path to the bytes on disk, and `runners` holds the in-flight executor
jobs. -/
structure ServerState where
  tasks : List TaskId
  uploads : List (UploadId × UploadSession)
  files : List (String × List Nat)
  runners : List Runner
deriving DecidableEq, Repr

def initState : ServerState :=
  { tasks := [], uploads := [], files := [], runners := [] }

/-- Key insertion with Python `dict` semantics on the key set of
`self.tasks`: an existing key is overwritten in place (the old
`asyncio.Task` handle is lost), a fresh key is appended. -/
def keyAdd (l : List TaskId) (k : TaskId) : List TaskId :=
  if k ∈ l then l else l ++ [k]

def keyErase (l : List TaskId) (k : TaskId) : List TaskId :=
  match l with
  | [] => []
  | k' :: rest => if k' = k then keyErase rest k else k' :: keyErase rest k

/-- The upload root, `self.upload_dir = "uploads"`. -/
def uploadDir : String := "uploads"

/-- Embedding of `handle_upload` (websocket_server.py lines 165-208).
`fileName` covers the client field (`""` doubles for a missing field,
both falsy); `openFails` is the outcome of the `os.makedirs`/`open`
calls inside the `try` block.  Note the session record is stored in
`self.uploads` before the `try` block, and `os.path.join` is applied
to the client-supplied name with no sanitisation. -/
def handleUpload (st : ServerState) (conn : Nat) (fileName : String) (fileSize : Nat)
    (openFails : Bool) : ServerState × List Out :=
  if fileName = "" then (st, [(conn, Response.error "Missing file_name")])
  else
    let uid : UploadId := (conn, st.uploads.length)
    let filePath := pathJoin uploadDir fileName
    let sess : UploadSession :=
      { fileName := fileName, filePath := filePath, fileSize := fileSize,
        uploadedSize := 0, handleOpen := false }
    let st1 := { st with uploads := dictSet st.uploads uid sess }
    if openFails then
      (st1, [(conn, Response.error "Failed to initialize upload")])
    else
      let st2 := { st1 with
        files := dictSet st1.files filePath [],
        uploads := dictSet st1.uploads uid { sess with handleOpen := true } }
      (st2, [(conn, Response.uploadInit uid)])

/-- Embedding of `handle_upload_chunk` (websocket_server.py lines
210-268).  `uid` is `none` when the field is missing; `chunk` is the
base64-decoded byte string (the `not chunk` falsiness test rejects the
empty string, hence the empty byte string).  The write and the
`uploaded_size` update precede the percentage computation, so a
`ZeroDivisionError` (modelled by `uploadProgressPct = none`) is raised
only after the chunk is on disk and is converted to an error response
by the `except` block. -/
def handleUploadChunk (st : ServerState) (conn : Nat) (uid? : Option UploadId)
    (chunk : List Nat) : ServerState × List Out :=
  match uid? with
  | none => (st, [(conn, Response.error "Missing upload_id or chunk")])
  | some uid =>
      if chunk = [] then (st, [(conn, Response.error "Missing upload_id or chunk")])
      else
        match dictGet st.uploads uid with
        | none => (st, [(conn, Response.error "Upload not found")])
        | some s =>
            if ¬ s.handleOpen then
              (st, [(conn, Response.error "Upload not properly initialized")])
            else
              let newBytes := (dictGet st.files s.filePath).getD [] ++ chunk
              let s' := { s with uploadedSize := s.uploadedSize + chunk.length }
              let st' := { st with
                files := dictSet st.files s.filePath newBytes,
                uploads := dictSet st.uploads uid s' }
              match uploadProgressPct s'.uploadedSize s.fileSize with
              | none =>
                  (st', [(conn, Response.error
                    "Failed to process upload chunk: division by zero")])
              | some p =>
                  (st', [(conn, Response.uploadProgress uid p s'.uploadedSize s.fileSize)])

/-- Embedding of `handle_upload_complete` (websocket_server.py lines
270-330): close the handle, verify the destination exists with nonzero
size, answer success or error accordingly, and in the `finally` block
discard the session record either way. -/
def handleUploadComplete (st : ServerState) (conn : Nat) (uid? : Option UploadId) :
    ServerState × List Out :=
  match uid? with
  | none => (st, [(conn, Response.error "Missing upload_id")])
  | some uid =>
      match dictGet st.uploads uid with
      | none => (st, [(conn, Response.error "Upload not found")])
      | some s =>
          let ok : Bool := match dictGet st.files s.filePath with
            | none => false
            | some bytes => decide (0 < bytes.length)
          let resp := if ok then Response.uploadDone uid s.filePath s.fileName
            else Response.error "Uploaded file is empty or does not exist"
          ({ st with uploads := dictErase st.uploads uid }, [(conn, resp)])

/-- Embedding of `handle_cancel_request` (websocket_server.py lines
148-163): the lookup is by `task_id` alone in the server-wide
`self.tasks` map — the sending connection plays no part.  `task.cancel()`
cancels the `asyncio` task awaiting the executor future, which removes
only a runner whose job has not yet started; a started job is not
interrupted. -/
def handleCancel (st : ServerState) (conn : Nat) (tid? : Option TaskId) :
    ServerState × List Out :=
  match tid? with
  | none => (st, [(conn, Response.error "Task not found")])
  | some tid =>
      if tid ∈ st.tasks then
        ({ st with
            tasks := keyErase st.tasks tid,
            runners := st.runners.filter (fun r => decide (¬ (r.tid = tid ∧ ¬ r.started))) },
          [(conn, Response.taskCancelled tid)])
      else (st, [(conn, Response.error "Task not found")])

/-- Embedding of `handle_convert_request` (websocket_server.py lines
100-137): missing paths are rejected; otherwise
`task_id = (connection, len(self.tasks))`, the conversion is submitted
to the executor (a new runner, not yet started), the task handle is
stored, and `task_started` is sent. -/
def handleConvert (st : ServerState) (conn : Nat) (env : ConvEnv) :
    ServerState × List Out :=
  if env.inputFile = "" ∨ env.outputFile = "" then
    (st, [(conn, Response.error "Missing input_file or output_file")])
  else
    let tid : TaskId := (conn, st.tasks.length)
    ({ st with
        tasks := keyAdd st.tasks tid,
        runners := st.runners ++
          [{ tid := tid, conn := conn, pending := convUpdates env, started := false }] },
      [(conn, Response.taskStarted tid)])

/-- An atomic scheduling step of the system: an inbound client message
handled by the connection's coroutine, a worker thread picking up a
submitted conversion job (`runnerStart`), or a started job delivering
its next callback update to the connection (`runnerEmit`).  Runner
actions address the job by its index in the runner list. -/
inductive Act where
  | upload (conn : Nat) (fileName : String) (fileSize : Nat) (openFails : Bool)
  | uploadChunk (conn : Nat) (uid : Option UploadId) (chunk : List Nat)
  | uploadComplete (conn : Nat) (uid : Option UploadId)
  | convert (conn : Nat) (env : ConvEnv)
  | cancel (conn : Nat) (tid : Option TaskId)
  | runnerStart (i : Nat)
  | runnerEmit (i : Nat)

def runnerStartAt (rs : List Runner) (i : Nat) : List Runner :=
  match rs, i with
  | [], _ => []
  | r :: rest, 0 => { r with started := true } :: rest
  | r :: rest, i + 1 => r :: runnerStartAt rest i

def step (st : ServerState) (a : Act) : ServerState × List Out :=
  match a with
  | Act.upload conn fn fs of => handleUpload st conn fn fs of
  | Act.uploadChunk conn uid chunk => handleUploadChunk st conn uid chunk
  | Act.uploadComplete conn uid => handleUploadComplete st conn uid
  | Act.convert conn env => handleConvert st conn env
  | Act.cancel conn tid => handleCancel st conn tid
  | Act.runnerStart i => ({ st with runners := runnerStartAt st.runners i }, [])
  | Act.runnerEmit i =>
      match (st.runners.drop i).head? with
      | none => (st, [])
      | some r =>
          if ¬ r.started then (st, [])
          else
            match r.pending with
            | [] => (st, [])
            | u :: rest =>
                ({ st with runners := st.runners.take i ++
                    ({ r with pending := rest } :: st.runners.drop (i + 1)) },
                  [(r.conn, Response.progressEvt r.tid u)])

def run (st : ServerState) : List Act → ServerState × List Out
  | [] => (st, [])
  | a :: acts =>
      ((run (step st a).1 acts).1, (step st a).2 ++ (run (step st a).1 acts).2)

/-! ### Scenario helpers -/

/-- A benign conversion environment: both paths present, tooling and
input present, an instantly succeeding collaborator with no progress
lines, exit code 0. -/
def envOk : ConvEnv :=
  { inputFile := "in.mov", outputFile := "out/x.mp4", cwd := "/srv",
    ffmpegAvailable := true, inputExists := true, inputIsFile := true,
    outputDirMissing := false, makedirsFails := false, duration := 0,
    spawnFails := false, spawnErrMsg := "", lines := [], returncode := 0,
    stderr := "" }

/-- Task identifiers announced by `task_started` responses, in order. -/
def startedIds (outs : List Out) : List TaskId :=
  outs.filterMap (fun o =>
    match o.2 with
    | Response.taskStarted tid => some tid
    | _ => none)

def isCancel : Act → Bool
  | Act.cancel _ _ => true
  | _ => false

/-- State after a sequence of `upload_chunk` messages for one session. -/
def runChunks (st : ServerState) (conn : Nat) (uid : UploadId) :
    List (List Nat) → ServerState
  | [] => st
  | c :: rest => runChunks (handleUploadChunk st conn (some uid) c).1 conn uid rest

/-- Full upload scenario: an `upload` message, the given chunks in
arrival order, then `upload_complete`, all on one connection. -/
def uploadRoundTrip (st₀ : ServerState) (conn : Nat) (name : String) (size : Nat)
    (cs : List (List Nat)) : ServerState × List Out :=
  handleUploadComplete
    (runChunks (handleUpload st₀ conn name size false).1 conn (conn, st₀.uploads.length) cs)
    conn (some (conn, st₀.uploads.length))

/-! ### Claims -/

/-- C1: the claim says a `file_name` that would escape the upload root
is rejected or sanitized, so no upload session ever opens a file
outside the upload root.  The code (`handle_upload`, lines 165-208)
joins the client-supplied name onto the root with no check: for
`file_name = "../pwned.mp4"` the upload succeeds (`upload_init` is
sent), a session is registered whose destination is
`uploads/../pwned.mp4`, and that file — which resolves outside the
`uploads` root — is created and opened for writing. -/
theorem c1_upload_path_escapes_root :
    (handleUpload initState 1 "../pwned.mp4" 100 false).2
        = [(1, Response.uploadInit (1, 0))] ∧
    dictGet (handleUpload initState 1 "../pwned.mp4" 100 false).1.uploads (1, 0)
        = some ({ fileName := "../pwned.mp4", filePath := "uploads/../pwned.mp4",
                  fileSize := 100, uploadedSize := 0, handleOpen := true }) ∧
    dictGet (handleUpload initState 1 "../pwned.mp4" 100 false).1.files
        "uploads/../pwned.mp4" = some [] ∧
    withinRoot uploadDir "uploads/../pwned.mp4" = false := by
  refine ⟨by decide, by decide, by decide, by decide⟩

/-- C2: the claim says that after a `cancel` for a task has been
answered with `task_cancelled`, no `progress` event with status
`completed` is ever delivered for that task id.  In the code,
`handle_cancel_request` only calls `asyncio.Task.cancel()` on the task
awaiting the executor future; a conversion job whose worker thread has
already started is not interrupted and its captured callback still
delivers events.  In the schedule below the job starts, the cancel is
accepted (`task_cancelled` sent), and the job then completes and
delivers `progress` with status `completed` for the cancelled task. -/
theorem c2_completed_delivered_after_cancel :
    (run initState [Act.convert 1 envOk, Act.runnerStart 0,
        Act.cancel 1 (some (1, 0)), Act.runnerEmit 0]).2
      = [(1, Response.taskStarted (1, 0)),
         (1, Response.taskCancelled (1, 0)),
         (1, Response.progressEvt (1, 0) (Update.completed "out/x.mp4"))] := by
  decide

/-- C4: the claim says a declared total size of 0 is guarded, the chunk
is appended and a progress report with percentage 0 (or omitted) is
emitted.  In the code the session's `file_size` key always exists (set
to the declared 0), so `upload_state.get("file_size", 1)` returns 0 and
`(uploaded_size / file_size) * 100` raises `ZeroDivisionError`; the
chunk has already been written and counted, and the `except` block
sends an `error` response instead of any progress report. -/
theorem c4_zero_declared_size_division_fails :
    (handleUploadChunk (handleUpload initState 1 "v.mp4" 0 false).1 1
        (some (1, 0)) [65, 66]).2
      = [(1, Response.error "Failed to process upload chunk: division by zero")] ∧
    dictGet (handleUploadChunk (handleUpload initState 1 "v.mp4" 0 false).1 1
        (some (1, 0)) [65, 66]).1.files "uploads/v.mp4" = some [65, 66] ∧
    (dictGet (handleUploadChunk (handleUpload initState 1 "v.mp4" 0 false).1 1
        (some (1, 0)) [65, 66]).1.uploads (1, 0)).map UploadSession.uploadedSize
      = some 2 := by
  refine ⟨by decide, by decide, by decide⟩

/-- C5 counterexample: the claim says every failing `upload` leaves the
session map unchanged.  `handle_upload` stores the session record
before the `try` block that opens the destination, so when the open
fails the error response is sent but a session (with a `None` file
handle) remains registered: starting from an empty session map, a
failing upload leaves the map nonempty. -/
theorem c5_failing_upload_registers_session :
    (handleUpload initState 1 "a.mp4" 10 true).2
        = [(1, Response.error "Failed to initialize upload")] ∧
    ¬ (handleUpload initState 1 "a.mp4" 10 true).1.uploads = initState.uploads := by
  refine ⟨by decide, by decide⟩

/-- C5 (amended): an `upload` with an empty `file_name` reports an
error and registers no session; an `upload` whose destination
directory creation or file open fails reports an error but leaves a
session record with no open file handle registered in the session
map. -/
theorem c5_failing_upload_amended (st : ServerState) (conn : Nat) (name : String)
    (size : Nat) (openFails : Bool) :
    (name = "" → handleUpload st conn name size openFails
        = (st, [(conn, Response.error "Missing file_name")])) ∧
    (name ≠ "" → openFails = true →
      (handleUpload st conn name size openFails).2
          = [(conn, Response.error "Failed to initialize upload")] ∧
      (handleUpload st conn name size openFails).1.uploads
          = dictSet st.uploads (conn, st.uploads.length)
              ({ fileName := name, filePath := pathJoin uploadDir name,
                 fileSize := size, uploadedSize := 0, handleOpen := false })) := by
  constructor
  · intro h
    simp [handleUpload, h]
  · intro h hof
    subst hof
    simp [handleUpload, h]

/-- Witness for the amended C5 at a concrete failing upload. -/
theorem c5_failing_upload_amended_witness :
    ("a.mp4" ≠ "") ∧
    (handleUpload initState 1 "a.mp4" 10 true).1.uploads
      = dictSet initState.uploads (1, 0)
          ({ fileName := "a.mp4", filePath := pathJoin uploadDir "a.mp4",
             fileSize := 10, uploadedSize := 0, handleOpen := false }) :=
  ⟨by decide,
    ((c5_failing_upload_amended initState 1 "a.mp4" 10 true).2 (by decide) rfl).2⟩

/-- C7: a `cancel` naming a task id absent from the task map, an
`upload_chunk` naming an upload id absent from the session map, and an
`upload_complete` naming an absent upload id each produce exactly one
`error` response and return the server state unchanged (task map,
session map and destination files identical). -/
theorem c7_unknown_ids_error_no_mutation (st : ServerState) (conn : Nat) (tid : TaskId)
    (uid : UploadId) (chunk : List Nat) :
    (tid ∉ st.tasks →
      handleCancel st conn (some tid) = (st, [(conn, Response.error "Task not found")])) ∧
    (dictGet st.uploads uid = none → chunk ≠ [] →
      handleUploadChunk st conn (some uid) chunk
        = (st, [(conn, Response.error "Upload not found")])) ∧
    (dictGet st.uploads uid = none →
      handleUploadComplete st conn (some uid)
        = (st, [(conn, Response.error "Upload not found")])) := by
  refine ⟨?_, ?_, ?_⟩
  · intro h
    simp [handleCancel, h]
  · intro h hc
    simp [handleUploadChunk, h, hc]
  · intro h
    simp [handleUploadComplete, h]

/-- Witness for C7 at concrete unknown identifiers on the initial
state. -/
theorem c7_unknown_ids_error_no_mutation_witness :
    handleCancel initState 1 (some (1, 0))
        = (initState, [(1, Response.error "Task not found")]) ∧
    handleUploadChunk initState 1 (some (1, 0)) [7]
        = (initState, [(1, Response.error "Upload not found")]) ∧
    handleUploadComplete initState 1 (some (1, 0))
        = (initState, [(1, Response.error "Upload not found")]) :=
  ⟨(c7_unknown_ids_error_no_mutation initState 1 (1, 0) (1, 0) [7]).1 (by decide),
   (c7_unknown_ids_error_no_mutation initState 1 (1, 0) (1, 0) [7]).2.1 (by decide)
     (by decide),
   (c7_unknown_ids_error_no_mutation initState 1 (1, 0) (1, 0) [7]).2.2 (by decide)⟩

/-- C8 counterexample: the claim says a task is looked up by
(connection, task-id) and a `cancel` from a different connection yields
a not-found error and does not cancel the task.  In the code
`self.tasks` is one server-wide dictionary keyed by the task-id string
alone: connection 2 cancels the task submitted by connection 1, receives
`task_cancelled`, and the task is removed from the map. -/
theorem c8_cross_connection_cancel_succeeds :
    (run initState [Act.convert 1 envOk, Act.cancel 2 (some (1, 0))]).2
      = [(1, Response.taskStarted (1, 0)), (2, Response.taskCancelled (1, 0))] ∧
    (run initState [Act.convert 1 envOk, Act.cancel 2 (some (1, 0))]).1.tasks = [] := by
  refine ⟨by decide, by decide⟩

/-- C8 (amended): tasks live in a single server-wide map keyed by
task id alone; a `cancel` naming a task id present in the map, sent
from any connection whatsoever, removes the task and is answered with
`task_cancelled` on the sending connection. -/
theorem c8_cancel_ignores_connection (st : ServerState) (conn : Nat) (tid : TaskId)
    (h : tid ∈ st.tasks) :
    handleCancel st conn (some tid)
      = ({ st with
            tasks := keyErase st.tasks tid,
            runners := st.runners.filter
              (fun r => decide (¬ (r.tid = tid ∧ ¬ r.started))) },
         [(conn, Response.taskCancelled tid)]) := by
  simp [handleCancel, h]

/-- Witness for the amended C8: connection 2 cancels the task owned by
connection 1. -/
theorem c8_cancel_ignores_connection_witness :
    handleCancel ({ tasks := [(1, 0)], uploads := [], files := [], runners := [] }) 2
        (some (1, 0))
      = ({ tasks := [], uploads := [], files := [], runners := [] },
         [(2, Response.taskCancelled (1, 0))]) :=
  c8_cancel_ignores_connection
    ({ tasks := [(1, 0)], uploads := [], files := [], runners := [] }) 2 (1, 0)
    (by decide)

/-- C6 counterexample: the claim says every percentage the system
computes satisfies `0 <= progress <= 100`.  The progress loop parses
any integer after `out_time_ms=` (and an ffmpeg collaborator can emit
negative values there); with duration 1 the line `out_time_ms=-2000000`
yields `min(100, int(-200.0)) = -200`, a computed percentage below 0 —
`min` caps only the upper bound. -/
theorem c6_negative_time_marker_negative_percentage :
    convProgress (-2000000) 1 = -200 ∧ ¬ (0 ≤ convProgress (-2000000) 1) := by
  have h : convProgress (-2000000) 1 = -200 := by
    unfold convProgress pyInt
    norm_num
    rw [show (-200 : ℚ) = ((-200 : ℤ) : ℚ) by norm_num, Int.ceil_intCast]
    decide
  exact ⟨h, by rw [h]; decide⟩

/-- C6 (amended): for a nonnegative time-marker value every conversion
percentage satisfies `0 <= progress <= 100`; when the probed duration
is positive the percentage equals
`min(100, floor(elapsed_seconds / duration * 100))` with
`elapsed_seconds = time_marker / 1000000`, and when the duration is
zero or unknown (nonpositive) the percentage is 0.  Upload percentages,
when one is computed at all, never exceed 100 (and are nonnegative, as
naturals).  A negative time marker yields a negative percentage
(see the counterexample). -/
theorem c6_percentage_bounds (t : Int) (d : ℚ) (ht : 0 ≤ t) :
    (0 ≤ convProgress t d ∧ convProgress t d ≤ 100) ∧
    (0 < d → convProgress t d = min 100 ⌊(t : ℚ) / 1000000 / d * 100⌋) ∧
    (d ≤ 0 → convProgress t d = 0) ∧
    (∀ u s p : Nat, uploadProgressPct u s = some p → p ≤ 100) := by
  have hq : ∀ hd : 0 < d, (0 : ℚ) ≤ (t : ℚ) / 1000000 / d * 100 := by
    intro hd
    have ht' : (0 : ℚ) ≤ (t : ℚ) := by exact_mod_cast ht
    positivity
  refine ⟨?_, ?_, ?_, ?_⟩
  · unfold convProgress
    split
    · rename_i hd
      have h0 := hq hd
      unfold pyInt
      rw [if_neg (by exact not_lt.mpr h0)]
      constructor
      · exact le_min (by norm_num) (Int.floor_nonneg.mpr h0)
      · exact min_le_left _ _
    · exact ⟨le_refl 0, by norm_num⟩
  · intro hd
    have h0 := hq hd
    unfold convProgress pyInt
    rw [if_pos hd, if_neg (not_lt.mpr h0)]
  · intro hd
    unfold convProgress
    rw [if_neg (not_lt.mpr hd)]
  · intro u s p h
    unfold uploadProgressPct at h
    split at h
    · exact absurd h (by simp)
    · rw [Option.some_inj] at h
      omega

/-- Witness for C6 at `out_time_ms=5000000`, duration 10 seconds. -/
theorem c6_percentage_bounds_witness :
    0 ≤ convProgress 5000000 10 ∧ convProgress 5000000 10 ≤ 100 :=
  (c6_percentage_bounds 5000000 10 (by decide)).1

/-- C10: exceptions raised by the caller-supplied progress callback are
caught inside `convert_video` by the `call_callback` wrapper
(`core.py` lines 70-79) and never propagate; the conversion proceeds
identically, so the result (and the delivered update sequence) equals
that of a callback that never raises, and the call always returns
normally. -/
theorem c10_callback_exceptions_contained {E : Type} (env : ConvEnv)
    (cb : Update → Except E Unit) :
    convertVideoRun env cb = convertVideoRun env (fun _ => Except.ok ()) ∧
    ∃ r, convertVideoRun env cb = Except.ok r :=
  ⟨convertVideoRun_cb_irrelevant env cb (fun _ => Except.ok ()),
   convertVideoRun_isOk env cb⟩

/-! ### Chunk accumulation (toward C3) -/

theorem handleUploadChunk_session (st : ServerState) (conn : Nat) (uid : UploadId)
    (c : List Nat) (s : UploadSession) (F : List Nat)
    (hs : dictGet st.uploads uid = some s) (ho : s.handleOpen = true)
    (hF : dictGet st.files s.filePath = some F) :
    dictGet (handleUploadChunk st conn (some uid) c).1.uploads uid
        = some ({ s with uploadedSize := s.uploadedSize + c.length }) ∧
    dictGet (handleUploadChunk st conn (some uid) c).1.files s.filePath
        = some (F ++ c) := by
  by_cases hc : c = []
  · subst hc
    simp [handleUploadChunk, hs, hF]
  · unfold handleUploadChunk
    simp only [hs, ho, if_neg hc, hF]
    cases hp : uploadProgressPct (s.uploadedSize + c.length) s.fileSize <;>
      simp [hp, dictGet_set_eq]

theorem runChunks_session (conn : Nat) (uid : UploadId) (cs : List (List Nat)) :
    ∀ (st : ServerState) (s : UploadSession) (F : List Nat),
      dictGet st.uploads uid = some s → s.handleOpen = true →
      dictGet st.files s.filePath = some F →
      dictGet (runChunks st conn uid cs).uploads uid
          = some ({ s with uploadedSize := s.uploadedSize + cs.flatten.length }) ∧
      dictGet (runChunks st conn uid cs).files s.filePath = some (F ++ cs.flatten) := by
  induction cs with
  | nil =>
      intro st s F hs ho hF
      simpa [runChunks] using ⟨hs, hF⟩
  | cons c rest ih =>
      intro st s F hs ho hF
      obtain ⟨h1, h2⟩ := handleUploadChunk_session st conn uid c s F hs ho hF
      obtain ⟨h1', h2'⟩ := ih (handleUploadChunk st conn (some uid) c).1
        ({ s with uploadedSize := s.uploadedSize + c.length }) (F ++ c) h1 ho h2
      rw [runChunks]
      constructor
      · rw [h1']
        simp [Nat.add_assoc]
      · rw [h2']
        simp

/-- C3: the upload round-trip.  After a successful `upload` (nonempty
file name, destination opened), a sequence of `upload_chunk` messages
whose decoded byte strings are `cs`, and an `upload_complete`, the
destination file holds exactly `cs.flatten` (the concatenation in
arrival order) — hence its on-disk size is `cs.flatten.length` — and
`upload_complete` answers with the success record precisely when that
content is nonempty. -/
theorem c3_upload_roundtrip (st₀ : ServerState) (conn : Nat) (name : String)
    (size : Nat) (cs : List (List Nat)) (hname : name ≠ "") :
    ((uploadRoundTrip st₀ conn name size cs).2
        = [(conn, Response.uploadDone (conn, st₀.uploads.length)
            (pathJoin uploadDir name) name)]
      ↔ cs.flatten ≠ []) ∧
    dictGet (uploadRoundTrip st₀ conn name size cs).1.files (pathJoin uploadDir name)
      = some cs.flatten := by
  have huid : dictGet (handleUpload st₀ conn name size false).1.uploads
      (conn, st₀.uploads.length)
      = some ({ fileName := name, filePath := pathJoin uploadDir name, fileSize := size,
                uploadedSize := 0, handleOpen := true }) := by
    simp [handleUpload, hname, dictGet_set_eq]
  have hfile : dictGet (handleUpload st₀ conn name size false).1.files
      (pathJoin uploadDir name) = some [] := by
    simp [handleUpload, hname, dictGet_set_eq]
  obtain ⟨h1, h2⟩ := runChunks_session conn (conn, st₀.uploads.length) cs
    (handleUpload st₀ conn name size false).1
    ({ fileName := name, filePath := pathJoin uploadDir name, fileSize := size,
       uploadedSize := 0, handleOpen := true }) [] huid rfl hfile
  rw [List.nil_append] at h2
  unfold uploadRoundTrip handleUploadComplete
  simp only [h1, h2]
  refine ⟨?_, trivial⟩
  constructor
  · intro hout hfl
    rw [hfl] at hout
    simp at hout
  · intro hfl
    have hp : 0 < cs.flatten.length := List.length_pos.mpr hfl
    rw [List.length_flatten] at hp
    simp [hp]

/-- Witness for C3: two chunks `[1, 2]` and `[3]` round-trip to the
file content `[1, 2, 3]` of size 3. -/
theorem c3_upload_roundtrip_witness :
    ("v.mp4" ≠ "") ∧
    dictGet (uploadRoundTrip initState 1 "v.mp4" 5 [[1, 2], [3]]).1.files
        (pathJoin uploadDir "v.mp4")
      = some ([[1, 2], [3]] : List (List Nat)).flatten :=
  ⟨by decide, (c3_upload_roundtrip initState 1 "v.mp4" 5 [[1, 2], [3]] (by decide)).2⟩

/-! ### Task-id bookkeeping (toward C9) -/

theorem handleUpload_tasks (st : ServerState) (conn : Nat) (n : String) (sz : Nat)
    (ofl : Bool) : (handleUpload st conn n sz ofl).1.tasks = st.tasks := by
  unfold handleUpload
  dsimp only
  repeat' split
  all_goals rfl

theorem handleUpload_startedIds (st : ServerState) (conn : Nat) (n : String) (sz : Nat)
    (ofl : Bool) : startedIds (handleUpload st conn n sz ofl).2 = [] := by
  unfold handleUpload
  dsimp only
  repeat' split
  all_goals rfl

theorem handleUploadChunk_tasks (st : ServerState) (conn : Nat) (uid? : Option UploadId)
    (chunk : List Nat) : (handleUploadChunk st conn uid? chunk).1.tasks = st.tasks := by
  unfold handleUploadChunk
  dsimp only
  repeat' split
  all_goals rfl

theorem handleUploadChunk_startedIds (st : ServerState) (conn : Nat)
    (uid? : Option UploadId) (chunk : List Nat) :
    startedIds (handleUploadChunk st conn uid? chunk).2 = [] := by
  unfold handleUploadChunk
  dsimp only
  repeat' split
  all_goals rfl

theorem handleUploadComplete_tasks (st : ServerState) (conn : Nat)
    (uid? : Option UploadId) : (handleUploadComplete st conn uid?).1.tasks = st.tasks := by
  unfold handleUploadComplete
  dsimp only
  repeat' split
  all_goals rfl

theorem handleUploadComplete_startedIds (st : ServerState) (conn : Nat)
    (uid? : Option UploadId) : startedIds (handleUploadComplete st conn uid?).2 = [] := by
  unfold handleUploadComplete
  dsimp only
  repeat' split
  all_goals rfl

theorem stepRunnerEmit_tasks (st : ServerState) (i : Nat) :
    (step st (Act.runnerEmit i)).1.tasks = st.tasks := by
  unfold step
  dsimp only
  repeat' split
  all_goals rfl

theorem stepRunnerEmit_startedIds (st : ServerState) (i : Nat) :
    startedIds (step st (Act.runnerEmit i)).2 = [] := by
  unfold step
  dsimp only
  repeat' split
  all_goals rfl

theorem startedIds_append (xs ys : List Out) :
    startedIds (xs ++ ys) = startedIds xs ++ startedIds ys := by
  unfold startedIds
  exact List.filterMap_append xs ys _

/-- Invariant carried along a cancel-free execution: the task ids
announced so far are distinct, each announced id is still a key of the
task map, and every key's sequence number is below the map's size. -/
def GoodInv (st : ServerState) (ids : List TaskId) : Prop :=
  ids.Nodup ∧ (∀ tid ∈ ids, tid ∈ st.tasks) ∧ ∀ tid ∈ st.tasks, tid.2 < st.tasks.length

theorem goodInv_same (st st' : ServerState) (ids : List TaskId) (h : GoodInv st ids)
    (ht : st'.tasks = st.tasks) : GoodInv st' (ids ++ []) := by
  rw [List.append_nil, GoodInv, ht]
  exact h

theorem step_preserves_inv (st : ServerState) (a : Act) (ids : List TaskId)
    (ha : isCancel a = false) (h : GoodInv st ids) :
    GoodInv (step st a).1 (ids ++ startedIds (step st a).2) := by
  cases a with
  | upload conn n sz ofl =>
      have h2 := handleUpload_startedIds st conn n sz ofl
      simp only [step, h2]
      exact goodInv_same st _ ids h (handleUpload_tasks st conn n sz ofl)
  | uploadChunk conn uid chunk =>
      have h2 := handleUploadChunk_startedIds st conn uid chunk
      simp only [step, h2]
      exact goodInv_same st _ ids h (handleUploadChunk_tasks st conn uid chunk)
  | uploadComplete conn uid =>
      have h2 := handleUploadComplete_startedIds st conn uid
      simp only [step, h2]
      exact goodInv_same st _ ids h (handleUploadComplete_tasks st conn uid)
  | cancel conn tid => exact absurd ha (by simp [isCancel])
  | runnerStart i => exact goodInv_same st _ ids h rfl
  | runnerEmit i =>
      have h2 := stepRunnerEmit_startedIds st i
      rw [h2]
      exact goodInv_same st _ ids h (stepRunnerEmit_tasks st i)
  | convert conn env =>
      obtain ⟨hnd, hmem, hbd⟩ := h
      simp only [step]
      unfold handleConvert
      split
      · exact goodInv_same st st ids ⟨hnd, hmem, hbd⟩ rfl
      · have hnotin : ((conn, st.tasks.length) : TaskId) ∉ st.tasks := by
          intro hmem'
          exact absurd (hbd _ hmem') (Nat.lt_irrefl _)
        have hka : keyAdd st.tasks (conn, st.tasks.length)
            = st.tasks ++ [((conn, st.tasks.length) : TaskId)] := by
          unfold keyAdd
          rw [if_neg hnotin]
        refine ⟨?_, ?_, ?_⟩
        · show (ids ++ [((conn, st.tasks.length) : TaskId)]).Nodup
          rw [List.nodup_append]
          refine ⟨hnd, List.nodup_singleton _, ?_⟩
          intro a hai hat
          rw [List.mem_singleton] at hat
          subst hat
          exact hnotin (hmem _ hai)
        · intro t ht
          have ht' : t ∈ ids ++ [((conn, st.tasks.length) : TaskId)] := ht
          rw [List.mem_append] at ht'
          show t ∈ keyAdd st.tasks (conn, st.tasks.length)
          rw [hka, List.mem_append]
          rcases ht' with ht' | ht'
          · exact Or.inl (hmem t ht')
          · exact Or.inr ht'
        · intro t ht
          have ht' : t ∈ keyAdd st.tasks (conn, st.tasks.length) := ht
          show t.2 < (keyAdd st.tasks (conn, st.tasks.length)).length
          rw [hka] at ht' ⊢
          rw [List.length_append, List.length_singleton]
          rw [List.mem_append] at ht'
          rcases ht' with ht' | ht'
          · exact Nat.lt_succ_of_lt (hbd t ht')
          · rw [List.mem_singleton] at ht'
            subst ht'
            exact Nat.lt_succ_self _

theorem run_preserves_inv (acts : List Act) :
    ∀ (st : ServerState) (ids : List TaskId),
      (∀ a ∈ acts, isCancel a = false) → GoodInv st ids →
      GoodInv (run st acts).1 (ids ++ startedIds (run st acts).2) := by
  induction acts with
  | nil =>
      intro st ids _ h
      simpa [run, startedIds] using h
  | cons a rest ih =>
      intro st ids hnc h
      have ha := hnc a (List.mem_cons_self a rest)
      have hrest : ∀ b ∈ rest, isCancel b = false :=
        fun b hb => hnc b (List.mem_cons_of_mem a hb)
      show GoodInv (run (step st a).1 rest).1
        (ids ++ startedIds ((step st a).2 ++ (run (step st a).1 rest).2))
      rw [startedIds_append, ← List.append_assoc]
      exact ih (step st a).1 (ids ++ startedIds (step st a).2) hrest
        (step_preserves_inv st a ids ha h)

/-- C9 counterexample: the claim says task ids are unique within a
connection's lifetime, including after earlier tasks were removed.  The
id is `(connection, len(self.tasks))` and a `cancel` pops an entry, so
after submit, submit, cancel-first, submit, the third submission is
announced with id `(1, 1)` — the id of the still-live second task,
whose map entry it overwrites. -/
theorem c9_duplicate_task_id_after_cancel :
    (run initState [Act.convert 1 envOk, Act.convert 1 envOk,
        Act.cancel 1 (some (1, 0)), Act.convert 1 envOk]).2
      = [(1, Response.taskStarted (1, 0)), (1, Response.taskStarted (1, 1)),
         (1, Response.taskCancelled (1, 0)), (1, Response.taskStarted (1, 1))] ∧
    ¬ (startedIds (run initState [Act.convert 1 envOk, Act.convert 1 envOk,
        Act.cancel 1 (some (1, 0)), Act.convert 1 envOk]).2).Nodup := by
  refine ⟨by decide, by decide⟩

/-- C9 (amended): task identifiers are unique within the server's
lifetime as long as no task has been removed by `cancel`: in any
cancel-free execution from the initial state, the ids announced by
`task_started` are pairwise distinct.  (After a `cancel` removes an
entry, `len(self.tasks)` shrinks and a later submission can reuse the
id of a live task — see the counterexample.) -/
theorem c9_task_ids_unique_without_cancel (acts : List Act)
    (h : ∀ a ∈ acts, isCancel a = false) :
    (startedIds (run initState acts).2).Nodup := by
  have hinv := run_preserves_inv acts initState [] h
    ⟨List.nodup_nil, fun t ht => absurd ht (List.not_mem_nil t),
     fun t ht => absurd ht (List.not_mem_nil t)⟩
  simpa using hinv.1

/-- Witness for the amended C9: two submissions with no cancel receive
distinct ids. -/
theorem c9_task_ids_unique_without_cancel_witness :
    (startedIds (run initState [Act.convert 1 envOk, Act.convert 1 envOk]).2).Nodup :=
  c9_task_ids_unique_without_cancel [Act.convert 1 envOk, Act.convert 1 envOk] (by decide)

end Video2MP4
